import Mathlib

/-!
Shallow embedding of the ssl-checker-go CLI (src/main.go) in Lean 4, together
with theorems settling the specification claims about its polling state
machine, transport layer, renderer and orchestrator.

Conventions of the embedding:
* Go structs become Lean structures with the same fields (ints as `Int`,
  strings as `String`, slices as `List`).
* HTTP effects are passed in explicitly: each operation receives the result
  of its `http.Client.Get` call as an `Except String HttpResponse` value
  (`Except.error` models a transport failure) and the `json.Unmarshal`
  step as a decoding oracle `String → Option T` (`none` models a parse error).
* `fmt.Errorf` wrapping is reproduced as string concatenation with the same
  format text as the source.
* Printing is modelled, where a claim needs it, as the list of lines emitted.
* A Go panic (index out of range on a slice) is a distinguished outcome of
  the embedded function, never a Lean error.
-/

namespace SSLChecker

/-- Go struct `Info` (src/main.go lines 13-20): parsed /info response. -/
structure Info where
  version : String
  criteriaVersion : String
  maxAssessments : Int
  currentAssessments : Int
  newAssessmentCoolOff : Int
  messages : List String
  deriving Repr, DecidableEq

/-- Go struct `Endpoint` (src/main.go lines 36-47): one server endpoint. -/
structure Endpoint where
  ipAddress : String
  serverName : String
  statusMessage : String
  statusDetails : String
  grade : String
  gradeTrustIgnored : String
  hasWarnings : Bool
  progress : Int
  duration : Int
  eta : Int
  deriving Repr, DecidableEq

/-- Go struct `Host` (src/main.go lines 22-34): one assessment snapshot. -/
structure Host where
  host : String
  port : Int
  protocol : String
  isPublic : Bool
  status : String
  statusMessage : String
  startTime : Int
  testTime : Int
  engineVersion : String
  criteriaVersion : String
  endpoints : List Endpoint
  deriving Repr, DecidableEq

/-- An HTTP response as the embedded client sees it: the numeric status code,
the status text (`resp.Status` in Go), and the result of `io.ReadAll` on the
body (`Except.error` models a body read failure). -/
structure HttpResponse where
  statusCode : Int
  statusText : String
  body : Except String String
  deriving Repr

/-- The fixed base URL set by `NewSSLClient` (src/main.go line 56). -/
def baseURL : String := "https://api.ssllabs.com/api/v2"

/-- URL built by `StartAssessment` (src/main.go lines 92-96): the domain is
spliced verbatim into the query string, and `publish=on` is appended exactly
when `publish` is true. -/
def StartURL (baseurl domain : String) (publish : Bool) : String :=
  let url := baseurl ++ "/analyze?host=" ++ domain ++ "&all=done&startNew=on"
  if publish then url ++ "&publish=on" else url

/-- URL built by `CheckAssessmentStatus` (src/main.go line 117). -/
def CheckURL (baseurl domain : String) : String :=
  baseurl ++ "/analyze?host=" ++ domain ++ "&all=done"

/-- Embedding of `CheckApiStatus` (src/main.go lines 61-89): the only
operation that inspects the HTTP status code; a non-200 code yields the
error string built at line 71. -/
def CheckApiStatus (getResult : Except String HttpResponse)
    (decodeInfo : String → Option Info) : Except String Info :=
  match getResult with
  | .error e => .error ("failed to reach SSL Labs API: " ++ e)
  | .ok resp =>
    if resp.statusCode ≠ 200 then
      .error ("API returned non-OK status: " ++ resp.statusText)
    else
      match resp.body with
      | .error e => .error ("failed to read API response: " ++ e)
      | .ok b =>
        match decodeInfo b with
        | none => .error "failed to parse API response"
        | some info => .ok info

/-- Embedding of `StartAssessment` (src/main.go lines 91-114): note that the
source never inspects `resp.StatusCode` here; the body is read and decoded
regardless of the HTTP status. -/
def StartAssessment (getResult : Except String HttpResponse)
    (decodeHost : String → Option Host) : Except String Host :=
  match getResult with
  | .error e => .error ("failed to start assessment: " ++ e)
  | .ok resp =>
    match resp.body with
    | .error e => .error ("failed to read assessment response: " ++ e)
    | .ok b =>
      match decodeHost b with
      | none => .error "failed to parse assessment response"
      | some host => .ok host

/-- Embedding of `CheckAssessmentStatus` (src/main.go lines 116-135): like
`StartAssessment`, the source never inspects the HTTP status code here. -/
def CheckAssessmentStatus (getResult : Except String HttpResponse)
    (decodeHost : String → Option Host) : Except String Host :=
  match getResult with
  | .error e => .error ("failed to check assessment status: " ++ e)
  | .ok resp =>
    match resp.body with
    | .error e => .error ("failed to read assessment status response: " ++ e)
    | .ok b =>
      match decodeHost b with
      | none => .error "failed to parse assessment status response"
      | some host => .ok host

/-- Outcome of the embedded `WaitForAssessment` loop on a finite sequence of
poll results. `panicked` models a Go runtime panic (slice index out of
range); `exhausted` means the supplied sequence ran out while the loop would
have kept polling (the Go loop itself has no exit other than return or
panic). -/
inductive WaitOutcome where
  | ok (h : Host)
  | err (msg : String)
  | panicked
  | exhausted (i endpointNo : Nat) (flag : Bool)
  deriving Repr, DecidableEq

/-- One iteration of the progress-tracking block of `WaitForAssessment`
(src/main.go lines 149-162), acting on the mutable state `(i, endpointNo,
flag)` given the freshly fetched snapshot. Returns `none` when the Go code
would panic: every branch that the source reaches evaluates
`host.Endpoints[i]` (line 150 inside the first-iteration branch, line 149
when `flag` is already set, and line 162 unconditionally), so the iteration
requires `i < host.endpoints.length`. -/
def waitStep (st : Nat × Nat × Bool) (host : Host) : Option (Nat × Nat × Bool) :=
  let (i, endpointNo, flag) := st
  if flag = false then
    -- line 149 short-circuits on !flag, but line 150 indexes endpoints[i]
    if h : i < host.endpoints.length then
      let p := (host.endpoints.get ⟨i, h⟩).progress
      let i2 := if p = 100 ∧ i + 1 < host.endpoints.length then i + 1 else i
      let e2 := if endpointNo < host.endpoints.length + 1 then endpointNo + 1 else endpointNo
      -- line 162 indexes endpoints[i2]
      if i2 < host.endpoints.length then some (i2, e2, true) else none
    else none
  else
    -- line 149 evaluates endpoints[i].Progress
    if h : i < host.endpoints.length then
      if (host.endpoints.get ⟨i, h⟩).progress = 100 then
        let i2 := if i + 1 < host.endpoints.length then i + 1 else i
        let e2 := if endpointNo < host.endpoints.length + 1 then endpointNo + 1 else endpointNo
        if i2 < host.endpoints.length then some (i2, e2, true) else none
      else
        -- progress block skipped; line 162 indexes endpoints[i], in range
        some (i, endpointNo, flag)
    else none

/-- The loop of `WaitForAssessment` (src/main.go lines 142-169) over a finite
list of `CheckAssessmentStatus` results, threading the `(i, endpointNo,
flag)` state. Also returns how many poll results were consumed. The status
check at line 164 runs only after the progress block, so a panic there
pre-empts even a terminal snapshot. -/
def waitLoop (st : Nat × Nat × Bool) :
    List (Except String Host) → WaitOutcome × Nat
  | [] => (.exhausted st.1 st.2.1 st.2.2, 0)
  | .error e :: _ => (.err ("failed to check assessment status: " ++ e), 1)
  | .ok host :: rest =>
    match waitStep st host with
    | none => (.panicked, 1)
    | some st2 =>
      if host.status = "READY" ∨ host.status = "ERROR" then (.ok host, 1)
      else
        let r := waitLoop st2 rest
        (r.1, r.2 + 1)

/-- Embedding of `WaitForAssessment` (src/main.go lines 137-170): the state
is initialised at line 139-140 as `i, endpoint := 0, 1` and `flag := false`. -/
def WaitForAssessment (polls : List (Except String Host)) : WaitOutcome × Nat :=
  waitLoop (0, 1, false) polls

/-- The per-endpoint lines printed by `displayResults` in the READY case
(src/main.go lines 183-188), for the endpoint at 0-based position `i`. -/
def endpointLines (i : Nat) (e : Endpoint) : List String :=
  ["Endpoint " ++ toString (i + 1) ++ ":",
   "  IP Address: " ++ e.ipAddress,
   "  Grade: " ++ e.grade,
   "  Status Message: " ++ e.statusMessage,
   "  Has Warnings: " ++ (if e.hasWarnings then "true" else "false"),
   ""]

/-- Helper for the indexed iteration `for i, endpoint := range host.Endpoints`
of src/main.go line 182. -/
def endpointSection (i : Nat) : List Endpoint → List String
  | [] => []
  | e :: es => endpointLines i e ++ endpointSection (i + 1) es

/-- Embedding of `displayResults` (src/main.go lines 172-194) as the list of
printed lines. `fmtUnix` stands for Go's
`time.Unix(sec, 0).Format("2006-01-02 15:04:05")` local-time formatter,
applied to `host.TestTime/1000`; Go's int64 division truncates toward zero,
hence `Int.tdiv`. The switch at line 177 has cases only for READY and ERROR:
any other status falls through and nothing beyond the three header lines is
printed. -/
def displayResults (fmtUnix : Int → String) (host : Host) : List String :=
  ["Assessment Results:",
   "Domain: " ++ host.host,
   "Status: " ++ host.status] ++
  (if host.status = "READY" then
    ("Test completed: " ++ fmtUnix (host.testTime.tdiv 1000)) ::
      endpointSection 0 host.endpoints
   else if host.status = "ERROR" then
    ["Assessment failed: " ++ host.statusMessage]
   else [])

/-- One HTTP call made by the program, as recorded in the call trace of the
embedded `main`. -/
inductive ApiCall where
  | infoCall
  | startCall (url : String)
  | pollCall (url : String)
  deriving Repr, DecidableEq

/-- The external world as `main` observes it: the `http.Client.Get` results
for the /info call, the start call, and each successive poll call, plus the
JSON decoding oracles. -/
structure Env where
  infoGet : Except String HttpResponse
  startGet : Except String HttpResponse
  pollGets : List (Except String HttpResponse)
  decodeInfo : String → Option Info
  decodeHost : String → Option Host

/-- Process outcome of the embedded `main`. `usage` is the exit-0 help path;
`rendered h` is the exit-0 path that calls `displayResults h`; the error
constructors are the `os.Exit(1)` paths with the message printed at each
site; `panicked` is a Go runtime panic inside `WaitForAssessment`;
`stillPolling` means the finite poll sequence was exhausted while the loop
would have continued. -/
inductive ExitOutcome where
  | usage
  | apiFailed (msg : String)
  | capacityExceeded
  | startFailed (msg : String)
  | waitFailed (msg : String)
  | panicked
  | rendered (h : Host)
  | stillPolling
  deriving Repr, DecidableEq

/-- Exit code of each outcome: 0 for the help path (line 207) and the
successful render path (end of main), 1 for every `os.Exit(1)` site (lines
215, 220, 228, 237), 2 for a Go panic, none for the artificial
`stillPolling` outcome of the finite model. -/
def exitCode : ExitOutcome → Option Nat
  | .usage => some 0
  | .apiFailed _ => some 1
  | .capacityExceeded => some 1
  | .startFailed _ => some 1
  | .waitFailed _ => some 1
  | .panicked => some 2
  | .rendered _ => some 0
  | .stillPolling => none

/-- Embedding of `main` (src/main.go lines 196-242), parameterised by the
flag values (`--domain`, `--publish`, `--help`) and the environment. Returns
the process outcome together with the trace of HTTP calls issued, in order. -/
def mainRun (domain : String) (publish help : Bool) (env : Env) :
    ExitOutcome × List ApiCall :=
  if help = true ∨ domain = "" then (.usage, [])
  else
    match CheckApiStatus env.infoGet env.decodeInfo with
    | .error e => (.apiFailed ("Error: " ++ e), [.infoCall])
    | .ok info =>
      if info.currentAssessments ≥ info.maxAssessments then
        (.capacityExceeded, [.infoCall])
      else
        match StartAssessment env.startGet env.decodeHost with
        | .error e =>
          (.startFailed ("Error starting assessment: " ++ e),
           [.infoCall, .startCall (StartURL baseURL domain publish)])
        | .ok host =>
          let startTrace : List ApiCall :=
            [.infoCall, .startCall (StartURL baseURL domain publish)]
          if host.status ≠ "READY" ∧ host.status ≠ "ERROR" then
            let polls := env.pollGets.map
              (fun g => CheckAssessmentStatus g env.decodeHost)
            let r := WaitForAssessment polls
            let trace := startTrace ++
              List.replicate r.2 (.pollCall (CheckURL baseURL domain))
            match r.1 with
            | .ok h => (.rendered h, trace)
            | .err e => (.waitFailed ("Error waiting for assessment: " ++ e), trace)
            | .panicked => (.panicked, trace)
            | .exhausted _ _ _ => (.stillPolling, trace)
          else
            (.rendered host, startTrace)

/-! Observation functions for URLs: extract the query part of a URL and parse
it into key-value pairs, so that claims about the query parameters of the
requests can be stated semantically. These are analysis tools, not part of
the Go source (which builds its URLs by plain string formatting). -/

/-- Characters after the first question mark, if any. -/
def queryChars : List Char → List Char
  | [] => []
  | c :: cs => if c = '?' then cs else queryChars cs

/-- Split a character list at every occurrence of the separator `c`. -/
def splitOnChar (c : Char) : List Char → List (List Char)
  | [] => [[]]
  | x :: xs =>
    let r := splitOnChar c xs
    if x = c then [] :: r
    else
      match r with
      | [] => [[x]]
      | y :: ys => (x :: y) :: ys

/-- Split one `key=value` chunk at its first equals sign; a chunk without an
equals sign is all key and empty value. -/
def keyValueOf : List Char → List Char × List Char
  | [] => ([], [])
  | x :: xs =>
    if x = '=' then ([], xs)
    else
      let r := keyValueOf xs
      (x :: r.1, r.2)

/-- The key-value pairs of the query part of a URL, in order. -/
def queryParams (url : String) : List (String × String) :=
  (splitOnChar '&' (queryChars url.data)).map
    (fun kv => (String.mk (keyValueOf kv).1, String.mk (keyValueOf kv).2))

/-! Concrete fixtures used as inputs to the theorems below: sample snapshots,
responses and environments matching the scenarios of the specification. -/

/-- Snapshot with an empty endpoints list, as the service returns while it is
still resolving DNS for the target host. -/
def dnsHost : Host :=
  ⟨"example.com", 443, "http", true, "DNS", "Resolving domain names",
   0, 0, "2.4.1", "2009q", []⟩

/-- Terminal READY snapshot whose endpoints list is empty. -/
def readyEmptyHost : Host :=
  ⟨"example.com", 443, "http", true, "READY", "",
   1700000000000, 1700000050000, "2.4.1", "2009q", []⟩

/-- A completed endpoint with grade A, as in the specification scenario. -/
def sampleEndpoint : Endpoint :=
  ⟨"93.184.216.34", "", "Ready", "", "A", "A", false, 100, 80000, 0⟩

/-- Terminal READY snapshot with one graded endpoint. -/
def readyHost : Host :=
  ⟨"example.com", 443, "http", true, "READY", "Ready",
   1700000000000, 1700000050000, "2.4.1", "2009q", [sampleEndpoint]⟩

/-- Non-terminal snapshot: assessment in progress at 40 percent. -/
def progressHost : Host :=
  ⟨"example.com", 443, "http", true, "IN_PROGRESS", "",
   1700000000000, 0, "2.4.1", "2009q",
   [{sampleEndpoint with progress := 40, grade := ""}]⟩

/-- An HTTP 500 response whose body is nevertheless readable. -/
def resp500 : HttpResponse := ⟨500, "500 Internal Server Error", .ok "{}"⟩

/-- A successful HTTP response with the given body. -/
def okResp (b : String) : HttpResponse := ⟨200, "200 OK", .ok b⟩

/-- Service info at full capacity: 20 of 20 assessments in use (the
specification scenario for the capacity check). -/
def capInfo : Info := ⟨"2.2.0", "2009q", 20, 20, 1000, []⟩

/-- Service info with free capacity: 3 of 25 assessments in use. -/
def freeInfo : Info := ⟨"2.2.0", "2009q", 25, 3, 1000, []⟩

/-- Environment whose /info call reports full capacity. -/
def capEnv : Env :=
  ⟨.ok (okResp "info"), .ok (okResp "host"), [],
   fun _ => some capInfo, fun _ => some readyHost⟩

/-- Environment with free capacity whose start call returns an already
terminal READY snapshot (the cached-results shortcut). -/
def readyEnv : Env :=
  ⟨.ok (okResp "info"), .ok (okResp "host"), [],
   fun _ => some freeInfo, fun _ => some readyHost⟩

theorem splitOnChar_ne_nil (c : Char) (l : List Char) : splitOnChar c l ≠ [] := by
  induction l with
  | nil => simp [splitOnChar]
  | cons x xs ih =>
    simp only [splitOnChar]
    by_cases hx : x = c
    · simp [hx]
    · simp only [hx, if_false]
      cases h : splitOnChar c xs with
      | nil => exact absurd h ih
      | cons y ys => simp

theorem splitOnChar_append_sep (c : Char) (l₁ l₂ : List Char) (h : c ∉ l₁) :
    splitOnChar c (l₁ ++ c :: l₂) = l₁ :: splitOnChar c l₂ := by
  induction l₁ with
  | nil => simp [splitOnChar]
  | cons x xs ih =>
    have hx : x ≠ c := fun hxc => h (hxc ▸ List.mem_cons_self x xs)
    have hxs : c ∉ xs := fun hm => h (List.mem_cons_of_mem x hm)
    simp only [List.cons_append, splitOnChar, hx, if_false, List.append_eq, ih hxs]

theorem splitOnChar_no_sep (c : Char) (l : List Char) (h : c ∉ l) :
    splitOnChar c l = [l] := by
  induction l with
  | nil => rfl
  | cons x xs ih =>
    have hx : x ≠ c := fun hxc => h (hxc ▸ List.mem_cons_self x xs)
    have hxs : c ∉ xs := fun hm => h (List.mem_cons_of_mem x hm)
    simp [splitOnChar, hx, ih hxs]

theorem keyValueOf_append (k v : List Char) (h : ('=' : Char) ∉ k) :
    keyValueOf (k ++ '=' :: v) = (k, v) := by
  induction k with
  | nil => simp [keyValueOf]
  | cons x xs ih =>
    have hx : x ≠ '=' := fun hxc => h (hxc ▸ List.mem_cons_self x xs)
    have hxs : ('=' : Char) ∉ xs := fun hm => h (List.mem_cons_of_mem x hm)
    simp [keyValueOf, hx, ih hxs]

theorem queryChars_append (p rest : List Char) (h : ('?' : Char) ∉ p) :
    queryChars (p ++ '?' :: rest) = rest := by
  induction p with
  | nil => simp [queryChars]
  | cons x xs ih =>
    have hx : x ≠ '?' := fun hxc => h (hxc ▸ List.mem_cons_self x xs)
    have hxs : ('?' : Char) ∉ xs := fun hm => h (List.mem_cons_of_mem x hm)
    simp [queryChars, hx, ih hxs]

/-- A host returned by the wait loop always has terminal status: the return
at src/main.go line 166 is guarded by the check at line 164. -/
theorem waitLoop_ok_terminal :
    ∀ (polls : List (Except String Host)) (st : Nat × Nat × Bool) (h : Host),
      (waitLoop st polls).1 = .ok h → h.status = "READY" ∨ h.status = "ERROR" := by
  intro polls
  induction polls with
  | nil => intro st h hw; simp [waitLoop] at hw
  | cons p rest ih =>
    intro st h hw
    match p with
    | .error e => simp [waitLoop] at hw
    | .ok host =>
      simp only [waitLoop] at hw
      cases hstep : waitStep st host with
      | none => simp only [hstep] at hw; simp at hw
      | some st2 =>
        simp only [hstep] at hw
        by_cases hterm : host.status = "READY" ∨ host.status = "ERROR"
        · rw [if_pos hterm] at hw
          simp only [Prod.fst] at hw
          cases hw
          exact hterm
        · rw [if_neg hterm] at hw
          exact ih st2 h hw

/-- A rendered host coming out of the embedded `main` always has terminal
status: either the guard at src/main.go line 232 failed, or it came out of
`WaitForAssessment`. -/
theorem mainRun_rendered_terminal (domain : String) (publish help : Bool)
    (env : Env) (h : Host)
    (hr : (mainRun domain publish help env).1 = .rendered h) :
    h.status = "READY" ∨ h.status = "ERROR" := by
  simp only [mainRun] at hr
  by_cases hu : help = true ∨ domain = ""
  · rw [if_pos hu] at hr; simp at hr
  · rw [if_neg hu] at hr
    cases hinfo : CheckApiStatus env.infoGet env.decodeInfo with
    | error e => simp only [hinfo] at hr; simp at hr
    | ok info =>
      simp only [hinfo] at hr
      by_cases hcap : info.currentAssessments ≥ info.maxAssessments
      · rw [if_pos hcap] at hr; simp at hr
      · rw [if_neg hcap] at hr
        cases hstart : StartAssessment env.startGet env.decodeHost with
        | error e => simp only [hstart] at hr; simp at hr
        | ok host =>
          simp only [hstart] at hr
          by_cases hterm : host.status ≠ "READY" ∧ host.status ≠ "ERROR"
          · rw [if_pos hterm] at hr
            cases hw : (WaitForAssessment
                (env.pollGets.map fun g =>
                  CheckAssessmentStatus g env.decodeHost)).1 with
            | ok hh =>
              simp only [hw] at hr
              have hhh : hh = h := by simpa using hr
              subst hhh
              exact waitLoop_ok_terminal _ _ _ hw
            | err msg => simp only [hw] at hr; simp at hr
            | panicked => simp only [hw] at hr; simp at hr
            | exhausted a b c => simp only [hw] at hr; simp at hr
          · rw [if_neg hterm] at hr
            have hhh : host = h := by simpa using hr
            subst hhh
            rcases not_and_or.mp hterm with h1 | h1
            · exact Or.inl (not_not.mp h1)
            · exact Or.inr (not_not.mp h1)

/-- The READY-case endpoint iteration prints, for the endpoint at each
position, the lines of `endpointLines` in order, with indices enumerated
from the given start. -/
theorem endpointSection_eq_enumFrom (es : List Endpoint) :
    ∀ n, endpointSection n es =
      ((List.enumFrom n es).map fun p => endpointLines p.1 p.2).flatten := by
  induction es with
  | nil => intro n; rfl
  | cons e es ih => intro n; simp [endpointSection, List.enumFrom, ih]

/-- Parsing the query of a URL of the shape the client builds: base URL,
fixed `/analyze?host=` prefix, the verbatim domain, then an
ampersand-separated tail. Holds for any domain without an ampersand. -/
theorem queryParams_analyze (d rest : String) (hd : ('&' : Char) ∉ d.data) :
    queryParams (baseURL ++ "/analyze?host=" ++ d ++ ("&" ++ rest)) =
      ("host", d) :: (splitOnChar '&' rest.data).map
        (fun kv => (String.mk (keyValueOf kv).1, String.mk (keyValueOf kv).2)) := by
  have e2 : ("&" : String).data = ['&'] := by decide
  have hdata : (baseURL ++ "/analyze?host=" ++ d ++ ("&" ++ rest)).data
      = "https://api.ssllabs.com/api/v2/analyze".data ++
          '?' :: (("host=".data ++ d.data) ++ '&' :: rest.data) := by
    simp only [String.data_append, e2]
    simp [baseURL, List.append_assoc]
  unfold queryParams
  rw [hdata, queryChars_append _ _ (by decide)]
  have hl1 : ('&' : Char) ∉ "host=".data ++ d.data := by
    intro hm
    rcases List.mem_append.1 hm with hm1 | hm2
    · exact absurd hm1 (by decide)
    · exact hd hm2
  rw [splitOnChar_append_sep _ _ _ hl1]
  simp only [List.map_cons]
  have hhost : keyValueOf ("host=".data ++ d.data) = ("host".data, d.data) := by
    have e3 : "host=".data ++ d.data = "host".data ++ '=' :: d.data := rfl
    rw [e3, keyValueOf_append _ _ (by decide)]
  rw [hhost]

/-- C1: the progress-tracking loop of `WaitForAssessment` is claimed never to
index past the end of the endpoints list and not to fail on an empty list.
The code violates this: on a first poll whose snapshot has an empty
endpoints list it evaluates `host.Endpoints[0]` (src/main.go line 150) and
panics instead of reporting no progress and continuing to poll. -/
theorem c1_waitForAssessment_panics_on_empty_endpoints :
    WaitForAssessment [.ok dnsHost] = (.panicked, 1) ∧
    (WaitForAssessment [.ok dnsHost]).1 ≠ .ok dnsHost := ⟨rfl, by decide⟩

/-- C2 counterexample: a start-assessment (and likewise check-assessment)
call whose HTTP response has status 500 does not fail with the
unexpected-status error; the body is decoded and returned as a record,
because src/main.go lines 97-113 and 118-134 never inspect the status
code. -/
theorem c2_non_ok_status_still_decodes :
    StartAssessment (.ok resp500) (fun _ => some readyHost) = .ok readyHost ∧
    CheckAssessmentStatus (.ok resp500) (fun _ => some readyHost) = .ok readyHost :=
  ⟨rfl, rfl⟩

/-- C2 amended: only the service-info operation fails with the
unexpected-status error carrying the status text on a non-200 response
(src/main.go lines 70-72); start-assessment and check-assessment never
inspect the HTTP status, so their result depends only on the body. -/
theorem c2_only_info_checks_status :
    (∀ (resp : HttpResponse) (dI : String → Option Info), resp.statusCode ≠ 200 →
      CheckApiStatus (.ok resp) dI =
        .error ("API returned non-OK status: " ++ resp.statusText)) ∧
    (∀ (ca cb : Int) (ta tb : String) (b : Except String String)
        (dH : String → Option Host),
      StartAssessment (.ok ⟨ca, ta, b⟩) dH = StartAssessment (.ok ⟨cb, tb, b⟩) dH) ∧
    (∀ (ca cb : Int) (ta tb : String) (b : Except String String)
        (dH : String → Option Host),
      CheckAssessmentStatus (.ok ⟨ca, ta, b⟩) dH =
        CheckAssessmentStatus (.ok ⟨cb, tb, b⟩) dH) := by
  refine ⟨fun resp dI hne => ?_, fun _ _ _ _ _ _ => rfl, fun _ _ _ _ _ _ => rfl⟩
  simp [CheckApiStatus, hne]

/-- C2 witness: the amended statement applied to the concrete 500 response. -/
theorem c2_only_info_checks_status_witness :
    CheckApiStatus (.ok resp500) (fun _ => some capInfo) =
      .error ("API returned non-OK status: " ++ resp500.statusText) :=
  c2_only_info_checks_status.1 resp500 (fun _ => some capInfo) (by decide)

/-- C3: whenever the service info reports `currentAssessments ≥
maxAssessments`, the orchestrator exits with the capacity-exceeded outcome
(src/main.go lines 217-221) and the HTTP call trace contains the /info call
only — in particular no start-assessment call is ever issued. -/
theorem c3_capacity_aborts_before_start (domain : String) (publish : Bool)
    (env : Env) (info : Info)
    (hd : domain ≠ "")
    (hinfo : CheckApiStatus env.infoGet env.decodeInfo = .ok info)
    (hcap : info.currentAssessments ≥ info.maxAssessments) :
    mainRun domain publish false env = (.capacityExceeded, [.infoCall]) ∧
    ∀ url, ApiCall.startCall url ∉ (mainRun domain publish false env).2 := by
  have hmain : mainRun domain publish false env = (.capacityExceeded, [.infoCall]) := by
    simp [mainRun, hd, hinfo, hcap]
  refine ⟨hmain, fun url hm => ?_⟩
  rw [hmain] at hm
  simp at hm

/-- C3 witness: the specification scenario ServiceInfo with max 20 and
current 20 aborts with the capacity error and no start call. -/
theorem c3_capacity_aborts_before_start_witness :
    mainRun "example.com" false false capEnv = (.capacityExceeded, [.infoCall]) ∧
    ∀ url, ApiCall.startCall url ∉ (mainRun "example.com" false false capEnv).2 :=
  c3_capacity_aborts_before_start "example.com" false capEnv capInfo
    (by decide) rfl (by decide)

/-- C4 counterexample: a poll response with terminal status READY whose
endpoints list is empty makes `WaitForAssessment` panic in the progress
block (src/main.go line 150) before the terminal check at line 164 can run,
so the loop does not return that Assessment. -/
theorem c4_terminal_snapshot_panics_instead_of_returning :
    WaitForAssessment [.ok readyEmptyHost] = (.panicked, 1) ∧
    (WaitForAssessment [.ok readyEmptyHost]).1 ≠ .ok readyEmptyHost := ⟨rfl, by decide⟩

/-- C4 amended: whenever the progress-tracking step does not go out of range
on the terminal snapshot, the loop returns that Assessment value unchanged
as soon as its status is READY or ERROR, consuming exactly one poll and
never touching the rest of the response sequence. -/
theorem c4_terminal_poll_returns_unchanged (st : Nat × Nat × Bool) (host : Host)
    (st2 : Nat × Nat × Bool) (rest : List (Except String Host))
    (hstep : waitStep st host = some st2)
    (hterm : host.status = "READY" ∨ host.status = "ERROR") :
    waitLoop st (.ok host :: rest) = (.ok host, 1) := by
  simp only [waitLoop, hstep]
  rw [if_pos hterm]

/-- C4 witness: from the initial loop state, a READY snapshot with one
endpoint is returned at once even though further responses were queued. -/
theorem c4_terminal_poll_returns_unchanged_witness :
    waitLoop (0, 1, false) [.ok readyHost, .ok progressHost] = (.ok readyHost, 1) :=
  c4_terminal_poll_returns_unchanged (0, 1, false) readyHost (0, 2, true)
    [.ok progressHost] rfl (Or.inl rfl)

/-- C5 counterexample: rendering an IN_PROGRESS Assessment prints exactly the
three header lines and nothing else — the switch at src/main.go line 177 has
no default case, so the renderer does not fail loudly on a non-terminal
status. -/
theorem c5_non_terminal_prints_only_headers :
    displayResults (fun _ => "") progressHost =
      ["Assessment Results:", "Domain: example.com", "Status: IN_PROGRESS"] := rfl

/-- C5 amended: on any Assessment whose status is neither READY nor ERROR,
the renderer silently prints only the header, domain and status lines; it
signals no contract violation. -/
theorem c5_non_terminal_renders_headers_only (fmtU : Int → String) (host : Host)
    (h1 : host.status ≠ "READY") (h2 : host.status ≠ "ERROR") :
    displayResults fmtU host =
      ["Assessment Results:", "Domain: " ++ host.host, "Status: " ++ host.status] := by
  simp [displayResults, h1, h2]

/-- C5 witness: the amended statement applied to the DNS-status snapshot. -/
theorem c5_non_terminal_renders_headers_only_witness :
    displayResults (fun _ => "x") dnsHost =
      ["Assessment Results:", "Domain: example.com", "Status: DNS"] := by
  have h := c5_non_terminal_renders_headers_only (fun _ => "x") dnsHost
    (by decide) (by decide)
  simpa using h

/-- C6: if the Assessment returned by the start call is already terminal, the
orchestrator renders it directly and the call trace contains no poll call;
otherwise the outcome is whatever `WaitForAssessment` returns, rendered,
with one poll call recorded per consumed response (src/main.go lines
230-241). -/
theorem c6_terminal_start_skips_polling (domain : String) (publish : Bool)
    (env : Env) (info : Info) (host : Host)
    (hd : domain ≠ "")
    (hinfo : CheckApiStatus env.infoGet env.decodeInfo = .ok info)
    (hcap : ¬ info.currentAssessments ≥ info.maxAssessments)
    (hstart : StartAssessment env.startGet env.decodeHost = .ok host) :
    ((host.status = "READY" ∨ host.status = "ERROR") →
      mainRun domain publish false env =
        (.rendered host, [.infoCall, .startCall (StartURL baseURL domain publish)])) ∧
    (host.status ≠ "READY" → host.status ≠ "ERROR" →
      ∀ h n, WaitForAssessment (env.pollGets.map fun g =>
          CheckAssessmentStatus g env.decodeHost) = (.ok h, n) →
        mainRun domain publish false env =
          (.rendered h,
           [.infoCall, .startCall (StartURL baseURL domain publish)] ++
             List.replicate n (.pollCall (CheckURL baseURL domain)))) := by
  constructor
  · intro hterm
    have hnot : ¬ (host.status ≠ "READY" ∧ host.status ≠ "ERROR") := by
      rcases hterm with h1 | h1 <;> simp [h1]
    simp [mainRun, hd, hinfo, hcap, hstart, hnot]
  · intro h1 h2 h n hw
    simp [mainRun, hd, hinfo, hcap, hstart, h1, h2, hw]

/-- C6 witness: the cached-results shortcut — a start call that returns a
READY snapshot is rendered with no poll call in the trace. -/
theorem c6_terminal_start_skips_polling_witness :
    mainRun "example.com" false false readyEnv =
      (.rendered readyHost,
       [.infoCall, .startCall (StartURL baseURL "example.com" false)]) :=
  (c6_terminal_start_skips_polling "example.com" false readyEnv freeInfo readyHost
    (by decide) rfl (by decide) rfl).1 (Or.inl rfl)

/-- C7: for every domain without an ampersand, the start request carries
exactly the query parameters host, all=done, startNew=on, plus publish=on
exactly when the publish flag is set, and the poll request carries host and
all=done with no startNew parameter. -/
theorem c7_request_query_params (d : String) (publish : Bool)
    (hd : ('&' : Char) ∉ d.data) :
    queryParams (StartURL baseURL d publish) =
      ("host", d) :: ("all", "done") :: ("startNew", "on") ::
        (if publish then [("publish", "on")] else []) ∧
    queryParams (CheckURL baseURL d) = [("host", d), ("all", "done")] ∧
    ∀ kv ∈ queryParams (CheckURL baseURL d), kv.1 ≠ "startNew" := by
  have hcheck : queryParams (CheckURL baseURL d) = [("host", d), ("all", "done")] := by
    have h1 : CheckURL baseURL d
        = baseURL ++ "/analyze?host=" ++ d ++ ("&" ++ "all=done") := by
      unfold CheckURL
      congr 1
    rw [h1, queryParams_analyze d _ hd]
    congr 1
  refine ⟨?_, hcheck, ?_⟩
  · cases publish with
    | false =>
      have h1 : StartURL baseURL d false
          = baseURL ++ "/analyze?host=" ++ d ++ ("&" ++ "all=done&startNew=on") := by
        unfold StartURL
        simp only [Bool.false_eq_true, if_false]
        congr 1
      rw [h1, queryParams_analyze d _ hd]
      simp only [Bool.false_eq_true, if_false]
      congr 1
    | true =>
      have h1 : StartURL baseURL d true
          = baseURL ++ "/analyze?host=" ++ d ++
              ("&" ++ "all=done&startNew=on&publish=on") := by
        unfold StartURL
        simp only [if_true]
        rw [String.append_assoc]
        congr 1
      rw [h1, queryParams_analyze d _ hd]
      simp only [if_true]
      congr 1
  · rw [hcheck]
    intro kv hm
    rcases List.mem_cons.1 hm with rfl | hm2
    · simp
    · rcases List.mem_cons.1 hm2 with rfl | hm3
      · simp
      · simp at hm3

/-- C7 witness: the parameter lists at the concrete domain example.com with
the publish flag set. -/
theorem c7_request_query_params_witness :
    queryParams (StartURL baseURL "example.com" true) =
      [("host", "example.com"), ("all", "done"), ("startNew", "on"),
       ("publish", "on")] := by
  have h := (c7_request_query_params "example.com" true (by decide)).1
  simpa using h

/-- C8: on every READY Assessment — the empty endpoints list included — the
renderer prints the domain, the status, the completion time formatted from
`testTime/1000` (epoch milliseconds truncated to seconds, Go division
toward zero), then for each endpoint in order its 1-based index, IP
address, grade, status message and warnings flag; being a total function it
cannot fail. -/
theorem c8_ready_render_layout (fmtU : Int → String) (host : Host)
    (h : host.status = "READY") :
    displayResults fmtU host =
      ["Assessment Results:", "Domain: " ++ host.host, "Status: " ++ host.status,
       "Test completed: " ++ fmtU (host.testTime.tdiv 1000)] ++
        ((host.endpoints.enum.map fun p => endpointLines p.1 p.2).flatten) := by
  simp [displayResults, h, endpointSection_eq_enumFrom, List.enum]

/-- C8 witness: the specification scenario of a READY Assessment with zero
endpoints renders the four header lines and nothing else. -/
theorem c8_ready_render_layout_witness :
    displayResults (fun _ => "2023-11-14 17:13:20") readyEmptyHost =
      ["Assessment Results:", "Domain: example.com", "Status: READY",
       "Test completed: 2023-11-14 17:13:20"] := by
  have h := c8_ready_render_layout (fun _ => "2023-11-14 17:13:20") readyEmptyHost rfl
  simpa using h

/-- C9: the help flag or a missing domain ends the run with exit code 0
after printing usage; every operational failure — unreachable service,
capacity exceeded, start error, poll error — exits with code 1; and a
rendered terminal Assessment exits with code 0 and always has status READY
or ERROR. -/
theorem c9_exit_codes (domain : String) (publish help : Bool) (env : Env) :
    ((help = true ∨ domain = "") →
      mainRun domain publish help env = (.usage, []) ∧
        exitCode ExitOutcome.usage = some 0) ∧
    (∀ e, (mainRun domain publish help env).1 = .apiFailed e →
      exitCode (mainRun domain publish help env).1 = some 1) ∧
    ((mainRun domain publish help env).1 = .capacityExceeded →
      exitCode (mainRun domain publish help env).1 = some 1) ∧
    (∀ e, (mainRun domain publish help env).1 = .startFailed e →
      exitCode (mainRun domain publish help env).1 = some 1) ∧
    (∀ e, (mainRun domain publish help env).1 = .waitFailed e →
      exitCode (mainRun domain publish help env).1 = some 1) ∧
    (∀ h, (mainRun domain publish help env).1 = .rendered h →
      exitCode (mainRun domain publish help env).1 = some 0 ∧
        (h.status = "READY" ∨ h.status = "ERROR")) := by
  refine ⟨fun hu => ⟨by simp [mainRun, hu], rfl⟩,
    fun e he => by rw [he]; rfl,
    fun hc => by rw [hc]; rfl,
    fun e he => by rw [he]; rfl,
    fun e he => by rw [he]; rfl,
    fun h hr => ⟨by rw [hr]; rfl, mainRun_rendered_terminal domain publish help env h hr⟩⟩

/-- C9 witness: an empty domain flag yields the usage outcome with exit
code 0. -/
theorem c9_exit_codes_witness :
    mainRun "" false false capEnv = (.usage, []) ∧
      exitCode ExitOutcome.usage = some 0 :=
  (c9_exit_codes "" false false capEnv).1 (Or.inr rfl)

/-- C10: both request builders splice the domain into the query string
verbatim, with no escaping, so the URL is literally the base URL followed
by the analyze path, the domain and the fixed parameters; consequently a
domain containing an ampersand injects an extra query parameter, as the
final concrete computation shows. -/
theorem c10_url_splices_domain_verbatim :
    (∀ d : String, StartURL baseURL d false =
      "https://api.ssllabs.com/api/v2/analyze?host=" ++ d ++ "&all=done&startNew=on") ∧
    (∀ d : String, StartURL baseURL d true =
      "https://api.ssllabs.com/api/v2/analyze?host=" ++ d ++
        "&all=done&startNew=on&publish=on") ∧
    (∀ d : String, CheckURL baseURL d =
      "https://api.ssllabs.com/api/v2/analyze?host=" ++ d ++ "&all=done") ∧
    queryParams (StartURL baseURL "a&publish=on" false) =
      [("host", "a"), ("publish", "on"), ("all", "done"), ("startNew", "on")] := by
  refine ⟨fun d => ?_, fun d => ?_, fun d => ?_, by decide⟩
  · unfold StartURL
    simp only [Bool.false_eq_true, if_false]
    congr 1
  · unfold StartURL
    simp only [if_true]
    rw [String.append_assoc]
    congr 1
  · unfold CheckURL
    congr 1

end SSLChecker
